import Mathlib

/-
Verification development for the zoom-recording-downloader repository
(zoom-recording-downloader.py and s3_client.py).

The definitions below are a shallow embedding of the Python source.
External effects are made explicit:
  - the local filesystem at a path is `Option Nat` (absent, or present with
    a byte size);
  - the completion ledger (the on-disk completed-downloads.log together
    with the in-memory set COMPLETED_MEETING_IDS) is a `LedgerState`
    threaded through the functions that mutate it;
  - network attempt outcomes (a download or upload attempt succeeding or
    raising) are an oracle `Nat → Bool` indexed by attempt number;
  - the storage backend's `upload_file` boolean and `verify_file_size`
    status for one file are fields of a per-file environment `FileEnv`.
Dates are integers (day numbers), so `timedelta` arithmetic and date
comparison become integer arithmetic.
-/

set_option maxHeartbeats 1000000

/-- Status strings used by the size-verification helpers
(`verify_local_file_size` and the backends' `verify_file_size`). -/
inductive VStatus
  | verified
  | mismatch
  | missing
  | error
deriving DecidableEq, Repr

/-- Result dictionary of a size verification.  The Python code returns a
dict whose `expected`/`actual` keys are present only in the
verified/mismatch cases, hence the `Option`s (`none` models an absent
key; the free-text `message` key is not modelled). -/
structure VResult where
  status : VStatus
  expected : Option Nat
  actual : Option Nat
deriving DecidableEq, Repr

/-- Embedding of `verify_local_file_size` (zoom-recording-downloader.py
lines 517-537).  The readable filesystem at the queried path is
`Option Nat`: `none` when `os.path.exists` is false, `some n` when the
file exists with size `n`.  The `error` branch of the Python function
(an OS exception raised by `os.path.getsize` on an existing file) lies
outside this filesystem model and is never produced here. -/
def verify_local_file_size (fs : Option Nat) (expected_size : Nat) : VResult :=
  match fs with
  | none => ⟨VStatus.missing, none, none⟩
  | some actual_size =>
      if actual_size = expected_size then
        ⟨VStatus.verified, some expected_size, some actual_size⟩
      else
        ⟨VStatus.mismatch, some expected_size, some actual_size⟩

/-- Classification of one file inside `verify_completed_downloads`. -/
inductive FileClass
  | skipped
  | verified
  | mismatch
  | missing
  | error
deriving DecidableEq, Repr

/-- Per-file classification step of `verify_completed_downloads`
(lines 870-921, local-storage branch): a file with `expected_size == 0`
is skipped (`continue`) before any verification; otherwise the file is
classified by the status returned by `verify_local_file_size`. -/
def verify_completed_download_step (fs : Option Nat) (expected_size : Nat) : FileClass :=
  if expected_size = 0 then FileClass.skipped
  else
    match (verify_local_file_size fs expected_size).status with
    | VStatus.verified => FileClass.verified
    | VStatus.mismatch => FileClass.mismatch
    | VStatus.missing => FileClass.missing
    | VStatus.error => FileClass.error

/-- The global configuration flags read by `process_recording`.
`storageEnabled` stands for "(GDRIVE_ENABLED or S3_ENABLED) and
storage_service is not None"; the Google-Drive and S3 branches of
`process_recording` (lines 655-701) are textually identical in
everything modelled here, so a single flag covers both. -/
structure Config where
  useCompletedLog : Bool
  verifyOnDownload : Bool
  verifyOnUpload : Bool
  storageEnabled : Bool
deriving DecidableEq, Repr

/-- Environment of one file inside the `process_recording` loop: the
outcomes of the external calls made for that file.
`downloadOk` is the boolean returned by `download_recording`;
`localSize` is the local filesystem at `full_filename` after the
download; `uploadOk` is the boolean returned by the backend's
`upload_file`; `remoteStatus` is the status returned by the backend's
`verify_file_size`; `folderEmpty` says whether, after `os.remove`, the
download directory exists and `os.listdir` of it is empty. -/
structure FileEnv where
  downloadOk : Bool
  expectedSize : Nat
  localSize : Option Nat
  uploadOk : Bool
  remoteStatus : VStatus
  folderEmpty : Bool
deriving DecidableEq, Repr

/-- Observable outcome of one iteration of the file loop of
`process_recording`: `fileSuccess` is the iteration's contribution to
`all_files_success` (`false` exactly when the iteration sets
`all_files_success = False`); `uploadSuccess` is the final value of the
local variable `upload_success`; `localDeleted` and `folderRemoved`
record whether `os.remove` / `os.rmdir` ran; `uploadAttempted` records
whether the backend's `upload_file` was called. -/
structure FileOutcome where
  fileSuccess : Bool
  uploadSuccess : Bool
  localDeleted : Bool
  folderRemoved : Bool
  uploadAttempted : Bool
deriving DecidableEq, Repr

/-- Condition of lines 637-645: local verification runs only when
`VERIFY_ON_DOWNLOAD and expected_size > 0`, and only the `"mismatch"`
status makes the file fail (states `"missing"`/`"error"` fall through
to the upload step). -/
def localMismatchDetected (cfg : Config) (env : FileEnv) : Bool :=
  cfg.verifyOnDownload && decide (0 < env.expectedSize) &&
    decide ((verify_local_file_size env.localSize env.expectedSize).status = VStatus.mismatch)

/-- Condition of lines 662-669 / 686-693: remote verification runs only
when the upload succeeded and `VERIFY_ON_UPLOAD and expected_size > 0`,
and only the `"mismatch"` status resets `upload_success` to `False`
(statuses `"verified"`/`"error"`, and any other, leave it `True`). -/
def remoteMismatchDetected (cfg : Config) (env : FileEnv) : Bool :=
  cfg.storageEnabled && env.uploadOk && cfg.verifyOnUpload &&
    decide (0 < env.expectedSize) && decide (env.remoteStatus = VStatus.mismatch)

/-- Embedding of the body of the per-file loop of `process_recording`
(lines 618-717).  Control flow of the source: if the download fails the
file fails (line 708-709); else if local verification detects a
mismatch the file fails and `continue` skips upload and cleanup
(lines 640-645); otherwise `upload_success` is the backend's upload
result, demoted to `False` when remote verification reports a mismatch
(lines 651-701), and the local file is removed (plus its folder if now
empty) exactly when `upload_success` holds and the file exists
(lines 703-707).  Note that a failed upload or a remote mismatch does
NOT touch `all_files_success`.  The `except` branch of lines 711-717
(an exception thrown by a helper) is not modelled: all modelled helpers
return values. -/
def process_recording_file (cfg : Config) (env : FileEnv) : FileOutcome :=
  if env.downloadOk then
    if localMismatchDetected cfg env then
      ⟨false, false, false, false, false⟩
    else
      let up := (cfg.storageEnabled && env.uploadOk) && !(remoteMismatchDetected cfg env)
      let del := up && env.localSize.isSome
      ⟨true, up, del, del && env.folderEmpty, cfg.storageEnabled⟩
  else
    ⟨false, false, false, false, false⟩

/-- The completion ledger: the lines of COMPLETED_MEETING_IDS_LOG and
the in-memory set COMPLETED_MEETING_IDS.  The Python set is modelled as
a duplicate-free list (insertion keeps first occurrences); every
set-level statement below is phrased through membership. -/
structure LedgerState where
  file : List String
  mem : List String
deriving DecidableEq, Repr

/-- Python `set.add`: a no-op when the element is already present. -/
def setInsert (s : List String) (x : String) : List String :=
  if x ∈ s then s else s ++ [x]

/-- Split a character sequence at newline characters.  `splitNl cs`
is the list of newline-free pieces of `cs`; a sequence with no newline
is one piece. -/
def splitNl : List Char → List (List Char)
  | [] => [[]]
  | c :: rest =>
      match splitNl rest with
      | [] => [[]]
      | l :: ls => if c = '\n' then [] :: l :: ls else (c :: l) :: ls

/-- The physical lines that writing `f"{recording_id}\n"` appends to
the log file.  Every write ends with a newline, so the file always ends
at a line boundary, and the appended physical lines are exactly the
pieces of the id split at its embedded newlines — one line, the id
itself, when the id contains no newline. -/
def pyWriteLines (recording_id : String) : List String :=
  (splitNl recording_id.data).map (fun l => ⟨l⟩)

/-- Embedding of `save_completed_meeting_id` (lines 479-487): when the
ledger is enabled, write `f"{recording_id}\n"` to the log file (its
physical lines are `pyWriteLines recording_id`) and add the id to the
in-memory set (both under the lock); otherwise do nothing. -/
def save_completed_meeting_id (useLog : Bool) (st : LedgerState) (recording_id : String) :
    LedgerState :=
  if useLog then ⟨st.file ++ pyWriteLines recording_id, setInsert st.mem recording_id⟩ else st

/-- A recording as `process_recording` consumes it: its uuid and, for
each entry of `get_downloads`, the per-file environment.  An empty
`files` list models `get_downloads` raising on a recording with no
`recording_files` (lines 290-291). -/
structure Recording where
  uuid : String
  files : List FileEnv
deriving DecidableEq, Repr

/-- Return value of `process_recording` together with the ledger it
leaves behind and instrumentation counting the transfer attempts it
performed (one `download_recording` call per file reached by the loop;
one backend `upload_file` call per file whose iteration reached the
upload step). -/
structure ProcessTrace where
  returnValue : Bool
  ledger : LedgerState
  downloadsAttempted : Nat
  uploadsAttempted : Nat
deriving DecidableEq, Repr

/-- Embedding of `process_recording` (lines 598-733).  Source control
flow: return success immediately when the ledger is enabled and already
contains the uuid (lines 603-605); return failure when `get_downloads`
raises because there are no files (lines 607-613); otherwise run the
file loop over all files, and write the uuid through the ledger iff
every iteration left `all_files_success` true (lines 617-729).  The
`DELETE_FROM_ZOOM` side effect after a successful save (lines 724-726)
is not modelled. -/
def process_recording (cfg : Config) (st : LedgerState) (rec : Recording) : ProcessTrace :=
  if cfg.useCompletedLog ∧ rec.uuid ∈ st.mem then
    ⟨true, st, 0, 0⟩
  else if rec.files.isEmpty then
    ⟨false, st, 0, 0⟩
  else
    let outcomes := rec.files.map (process_recording_file cfg)
    let ok := outcomes.all (fun o => o.fileSuccess)
    let ups := (outcomes.filter (fun o => o.uploadAttempted)).length
    if ok then
      ⟨true, save_completed_meeting_id cfg.useCompletedLog st rec.uuid, rec.files.length, ups⟩
    else
      ⟨false, st, rec.files.length, ups⟩

/-- The loop `for uuid in uuids: if uuid in s: s.remove(uuid)` shared by
`remove_from_completed_log` (lines 1198-1200) and
`auto_fix_corrupted_recordings` (lines 995-997). -/
def removeAll (s : List String) (uuids : List String) : List String :=
  match uuids with
  | [] => s
  | u :: rest => removeAll (if u ∈ s then s.filter (fun y => y != u) else s) rest

/-- Embedding of `remove_from_completed_log` (lines 1193-1212), happy
path: remove each given uuid from the in-memory set when present
(absent uuids are skipped by the `if uuid in` guard), rewrite the log
file with exactly the remaining set, return `True`.  The `except`
branch (an OS error, returning `False`) is outside the model. -/
def remove_from_completed_log (st : LedgerState) (recording_uuids : List String) :
    Bool × LedgerState :=
  let postMem := removeAll st.mem recording_uuids
  (true, ⟨postMem, postMem⟩)

/-- The verification report `auto_fix_corrupted_recordings` writes to
verification-report.log (lines 1009-1031): a section listing the size
mismatches and a section listing the missing files. -/
structure FixReport where
  mismatches : List (String × String × VResult)
  missing : List (String × String × Nat)
deriving DecidableEq, Repr

/-- The affected uuids collected by lines 975-979: the first component
of every mismatch triple and of every missing triple. -/
def affected_uuids (mismatches : List (String × String × VResult))
    (missing : List (String × String × Nat)) : List String :=
  mismatches.map (fun t => t.1) ++ missing.map (fun t => t.1)

/-- Embedding of `auto_fix_corrupted_recordings` (lines 965-1036).
Inputs: the `mismatches` and `missing` lists of the verification
results, and the operator's confirmation (`True` models answering
`y`).  Nothing changes when there is nothing to fix or the operator
declines; otherwise every affected uuid is removed from the in-memory
set, the log file is rewritten from the set, and the report is written.
The Python code iterates the affected uuids as a set; iterating the
list (possibly with duplicates) removes the same elements. -/
def auto_fix_corrupted_recordings (mismatches : List (String × String × VResult))
    (missing : List (String × String × Nat)) (confirmed : Bool) (st : LedgerState) :
    LedgerState × Option FixReport :=
  if mismatches.isEmpty && missing.isEmpty then (st, none)
  else if !confirmed then (st, none)
  else
    let postMem := removeAll st.mem (affected_uuids mismatches missing)
    (⟨postMem, postMem⟩, some ⟨mismatches, missing⟩)

/-- Embedding of `per_delta` (lines 323-329) with dates as integer day
numbers and the delta as a number of days:
`while curr < end: yield (curr, min(curr + delta, end)); curr += delta`.
The `0 < delta` conjunct in the guard makes the Lean function total;
for `delta = 0` the Python generator would never terminate, and the
program only ever calls it with a 30-day delta. -/
def per_delta (start stop : Int) (delta : Nat) : List (Int × Int) :=
  if _h : start < stop ∧ 0 < delta then
    (start, min (start + delta) stop) :: per_delta (start + delta) stop delta
  else []
termination_by (stop - start).toNat
decreasing_by
  obtain ⟨h1, h2⟩ := _h
  omega

/-- Trace of one transfer helper call: its boolean result, how many
attempts (HTTP calls) it made, the total seconds spent in
`time.sleep`, and how many lines it appended to the failed-uploads
log. -/
structure TransferTrace where
  result : Bool
  attempts : Nat
  sleepSeconds : Nat
  failedLogLines : Nat
deriving DecidableEq, Repr

/-- Embedding of `download_recording` (zoom-recording-downloader.py
lines 355-394).  The oracle gives the outcome of each would-be attempt.
The function issues exactly one `requests.get` / chunk-write pass: on
an exception it prints and returns `False` with no retry, no sleep and
no failed-uploads-log line. -/
def download_recording (attemptOk : Nat → Bool) : TransferTrace :=
  ⟨attemptOk 0, 1, 0, 0⟩

/-- Retry loop body of `S3Client.upload_file` (s3_client.py lines
115-155) over the list of attempt outcomes still available: a
successful attempt returns `True` at once; a failing attempt that is
not the last sleeps `retry_delay` seconds and retries; a failing last
attempt appends one line to the failed-uploads log and returns `False`.
An empty list models `max_retries == 0`, where the `for` loop never
runs and the function falls through returning Python `None` (falsy,
modelled as `false`). -/
def upload_file_go (retry_delay : Nat) : List Bool → TransferTrace
  | [] => ⟨false, 0, 0, 0⟩
  | [ok] => if ok then ⟨true, 1, 0, 0⟩ else ⟨false, 1, 0, 1⟩
  | ok :: rest =>
      if ok then ⟨true, 1, 0, 0⟩
      else
        let t := upload_file_go retry_delay rest
        ⟨t.result, t.attempts + 1, t.sleepSeconds + retry_delay, t.failedLogLines⟩

/-- Embedding of `S3Client.upload_file` (s3_client.py lines 106-159):
`for attempt in range(max_retries)` over the attempt-outcome oracle,
with the config values `max_retries` (default 3) and `retry_delay`
(default 5). -/
def upload_file (max_retries retry_delay : Nat) (attemptOk : Nat → Bool) : TransferTrace :=
  upload_file_go retry_delay ((List.range max_retries).map attemptOk)

/-! Helper lemmas about the ledger-set operations. -/

lemma mem_removeStep (m : List String) (u x : String) :
    (x ∈ if u ∈ m then m.filter (fun y => y != u) else m) ↔ x ∈ m ∧ x ≠ u := by
  split
  · simp [List.mem_filter]
  · rename_i h
    constructor
    · intro hx
      exact ⟨hx, fun e => h (e ▸ hx)⟩
    · exact And.left

lemma mem_removeAll (uuids : List String) :
    ∀ (m : List String) (x : String), x ∈ removeAll m uuids ↔ x ∈ m ∧ x ∉ uuids := by
  induction uuids with
  | nil => intro m x; simp [removeAll]
  | cons u us ih =>
      intro m x
      rw [removeAll, ih, mem_removeStep]
      simp only [List.mem_cons]
      constructor
      · rintro ⟨⟨h1, h2⟩, h3⟩
        exact ⟨h1, by rintro (rfl | h); exact h2 rfl; exact h3 h⟩
      · rintro ⟨h1, h2⟩
        exact ⟨⟨h1, fun e => h2 (Or.inl e)⟩, fun h => h2 (Or.inr h)⟩

lemma removeAll_of_disjoint (uuids : List String) :
    ∀ m : List String, (∀ u ∈ uuids, u ∉ m) → removeAll m uuids = m := by
  induction uuids with
  | nil => intro m _; rfl
  | cons u us ih =>
      intro m h
      rw [removeAll, if_neg (h u (List.mem_cons_self u us))]
      exact ih m (fun v hv => h v (List.mem_cons_of_mem _ hv))

/-! Helper lemmas about `per_delta`. -/

lemma per_delta_nil (s e : Int) (d : Nat) (h : e ≤ s) : per_delta s e d = [] := by
  rw [per_delta, dif_neg]
  omega

lemma per_delta_cons (s e : Int) (d : Nat) (h1 : s < e) (h2 : 0 < d) :
    per_delta s e d = (s, min (s + d) e) :: per_delta (s + d) e d := by
  rw [per_delta, dif_pos ⟨h1, h2⟩]

lemma per_delta_elem (s e : Int) (d : Nat) :
    ∀ p ∈ per_delta s e d, s ≤ p.1 ∧ p.1 < p.2 ∧ p.2 ≤ e ∧ p.2 - p.1 ≤ (d : Int) := by
  intro p hp
  rw [per_delta] at hp
  split at hp
  · rename_i h
    rcases List.mem_cons.mp hp with rfl | hp'
    · refine ⟨le_refl s, ?_, ?_, ?_⟩ <;> simp <;> omega
    · have ih := per_delta_elem (s + d) e d p hp'
      obtain ⟨a, b, c, dd⟩ := ih
      exact ⟨by omega, b, c, dd⟩
  · simp at hp
termination_by (e - s).toNat
decreasing_by
  rename_i h
  obtain ⟨h1, h2⟩ := h
  omega

lemma per_delta_chain (s e : Int) (d : Nat) :
    List.Chain' (fun p q : Int × Int => p.2 = q.1) (per_delta s e d) := by
  rw [per_delta]
  split
  · rename_i h
    rw [List.chain'_cons']
    refine ⟨?_, per_delta_chain (s + d) e d⟩
    intro b hb
    by_cases hlt : s + (d : Int) < e
    · rw [per_delta_cons _ _ _ hlt h.2] at hb
      simp at hb
      rw [← hb]
      simp
      omega
    · rw [per_delta_nil _ _ _ (by omega)] at hb
      simp at hb
  · exact List.chain'_nil
termination_by (e - s).toNat
decreasing_by
  rename_i h
  obtain ⟨h1, h2⟩ := h
  omega

lemma per_delta_pairwise (s e : Int) (d : Nat) :
    List.Pairwise (fun p q : Int × Int => p.2 ≤ q.1) (per_delta s e d) := by
  rw [per_delta]
  split
  · rename_i h
    refine List.Pairwise.cons ?_ (per_delta_pairwise (s + d) e d)
    intro q hq
    obtain ⟨h1, _, _, _⟩ := per_delta_elem (s + d) e d q hq
    simp
    omega
  · exact List.Pairwise.nil
termination_by (e - s).toNat
decreasing_by
  rename_i h
  obtain ⟨h1, h2⟩ := h
  omega

lemma per_delta_cover (s e : Int) (d : Nat) (hd : 0 < d) :
    ∀ x : Int, s ≤ x → x ≤ e → s < e → ∃ p ∈ per_delta s e d, p.1 ≤ x ∧ x ≤ p.2 := by
  intro x h1 h2 h3
  rw [per_delta_cons s e d h3 hd]
  by_cases hx : x ≤ min (s + (d : Int)) e
  · exact ⟨(s, min (s + d) e), List.mem_cons_self _ _, by simpa using h1, by simpa using hx⟩
  · have hlt : s + (d : Int) < e := by omega
    have hge : s + (d : Int) ≤ x := by omega
    obtain ⟨p, hp, hpx⟩ := per_delta_cover (s + d) e d hd x hge h2 hlt
    exact ⟨p, List.mem_cons_of_mem _ hp, hpx⟩
termination_by (e - s).toNat
decreasing_by
  omega

/-- C4.  Partition coverage: for every `(start_date, end_date,
max_window)` with a positive window, the `(sub_start, sub_end)` pairs
produced by `per_delta` cover `[start_date, end_date]` with no gaps
(consecutive intervals share their boundary point, some interval starts
at `start_date` and some interval ends at `end_date`) and no overlaps
beyond the shared boundary point (`p.2 ≤ q.1` for every earlier/later
pair), each sub-interval's length is at most `max_window`,
`start_date == end_date` yields the empty sequence (hence at most one
interval), and `start_date > end_date` yields the empty sequence rather
than an error. -/
theorem c4_per_delta_partition (s e : Int) (d : Nat) (hd : 0 < d) :
    (e ≤ s → per_delta s e d = []) ∧
    (∀ p ∈ per_delta s e d, s ≤ p.1 ∧ p.1 < p.2 ∧ p.2 ≤ e ∧ p.2 - p.1 ≤ (d : Int)) ∧
    List.Chain' (fun p q : Int × Int => p.2 = q.1) (per_delta s e d) ∧
    List.Pairwise (fun p q : Int × Int => p.2 ≤ q.1) (per_delta s e d) ∧
    (s < e → ∀ x : Int, s ≤ x → x ≤ e → ∃ p ∈ per_delta s e d, p.1 ≤ x ∧ x ≤ p.2) ∧
    (s < e → (∃ p ∈ per_delta s e d, p.1 = s) ∧ (∃ p ∈ per_delta s e d, p.2 = e)) ∧
    (s = e → per_delta s e d = []) := by
  refine ⟨fun h => per_delta_nil s e d h, per_delta_elem s e d, per_delta_chain s e d,
    per_delta_pairwise s e d, fun h x h1 h2 => per_delta_cover s e d hd x h1 h2 h,
    fun h => ⟨?_, ?_⟩, fun h => per_delta_nil s e d (le_of_eq h.symm)⟩
  · rw [per_delta_cons s e d h hd]
    exact ⟨(s, min (s + d) e), List.mem_cons_self _ _, rfl⟩
  · obtain ⟨p, hp, hp1, hp2⟩ := per_delta_cover s e d hd e (le_of_lt h) (le_refl e) h
    obtain ⟨_, _, hle, _⟩ := per_delta_elem s e d p hp
    exact ⟨p, hp, le_antisymm hle hp2⟩

/-- Witness for C4 at `start = 0`, `end = 65`, `window = 30`. -/
theorem c4_per_delta_partition_witness :
    0 < 30 ∧
    ((65 ≤ (0 : Int) → per_delta 0 65 30 = []) ∧
    (∀ p ∈ per_delta 0 65 30, (0 : Int) ≤ p.1 ∧ p.1 < p.2 ∧ p.2 ≤ 65 ∧ p.2 - p.1 ≤ (30 : Int)) ∧
    List.Chain' (fun p q : Int × Int => p.2 = q.1) (per_delta 0 65 30) ∧
    List.Pairwise (fun p q : Int × Int => p.2 ≤ q.1) (per_delta 0 65 30) ∧
    ((0 : Int) < 65 → ∀ x : Int, 0 ≤ x → x ≤ 65 → ∃ p ∈ per_delta 0 65 30, p.1 ≤ x ∧ x ≤ p.2) ∧
    ((0 : Int) < 65 → (∃ p ∈ per_delta 0 65 30, p.1 = 0) ∧ (∃ p ∈ per_delta 0 65 30, p.2 = 65)) ∧
    ((0 : Int) = 65 → per_delta 0 65 30 = [])) :=
  ⟨by decide, c4_per_delta_partition 0 65 30 (by decide)⟩

/-- C3.  Idempotent resumption: when the completion ledger is enabled
and already contains the recording's uuid, `process_recording` returns
success immediately, leaves the ledger untouched, and performs zero
transfer attempts (no download and no upload) for that recording. -/
theorem c3_idempotent_resumption (cfg : Config) (st : LedgerState) (rec : Recording)
    (h1 : cfg.useCompletedLog = true) (h2 : rec.uuid ∈ st.mem) :
    process_recording cfg st rec = ⟨true, st, 0, 0⟩ := by
  unfold process_recording
  rw [if_pos ⟨h1, h2⟩]

/-- Witness for C3: a one-file recording whose uuid is already in the
ledger is skipped outright. -/
theorem c3_idempotent_resumption_witness :
    process_recording ⟨true, true, true, true⟩ ⟨["r1"], ["r1"]⟩
        ⟨"r1", [⟨true, 1000, some 1000, true, VStatus.verified, true⟩]⟩ =
      ⟨true, ⟨["r1"], ["r1"]⟩, 0, 0⟩ :=
  c3_idempotent_resumption ⟨true, true, true, true⟩ ⟨["r1"], ["r1"]⟩
    ⟨"r1", [⟨true, 1000, some 1000, true, VStatus.verified, true⟩]⟩ rfl (by decide)

/-- C6.  Verification classification completeness: for every file with
`expected_size > 0`, `verify_local_file_size` returns `verified`
exactly when the on-disk size equals `expected_size`, `mismatch`
exactly when the file exists but its size differs, and `missing`
exactly when the file is absent; and every file with
`expected_size == 0` is exempt from verification — the verification
pass skips it (so it is never classified as `mismatch` or `missing`),
and the transfer path never fails such a file on local verification. -/
theorem c6_verification_classification (expected_size : Nat) (fs : Option Nat)
    (_hpos : 0 < expected_size) :
    ((verify_local_file_size fs expected_size).status = VStatus.verified ↔
      fs = some expected_size) ∧
    ((verify_local_file_size fs expected_size).status = VStatus.mismatch ↔
      ∃ a, fs = some a ∧ a ≠ expected_size) ∧
    ((verify_local_file_size fs expected_size).status = VStatus.missing ↔ fs = none) ∧
    (∀ g : Option Nat, verify_completed_download_step g 0 = FileClass.skipped ∧
      verify_completed_download_step g 0 ≠ FileClass.mismatch ∧
      verify_completed_download_step g 0 ≠ FileClass.missing) ∧
    (∀ (cfg : Config) (env : FileEnv), env.expectedSize = 0 → env.downloadOk = true →
      (process_recording_file cfg env).fileSuccess = true) := by
  refine ⟨?_, ?_, ?_, ?_, ?_⟩
  · cases fs with
    | none => simp [verify_local_file_size]
    | some a =>
        by_cases h : a = expected_size <;> simp [verify_local_file_size, h]
  · cases fs with
    | none => simp [verify_local_file_size]
    | some a =>
        by_cases h : a = expected_size <;> simp [verify_local_file_size, h]
  · cases fs with
    | none => simp [verify_local_file_size]
    | some a =>
        by_cases h : a = expected_size <;> simp [verify_local_file_size, h]
  · intro g
    refine ⟨rfl, ?_, ?_⟩ <;> simp [verify_completed_download_step]
  · intro cfg env h0 hdl
    have hl : localMismatchDetected cfg env = false := by
      simp [localMismatchDetected, h0]
    simp [process_recording_file, hdl, hl]

/-- Witness for C6 at `expected_size = 1000` over a present file of the
right size. -/
theorem c6_verification_classification_witness :
    0 < 1000 ∧
    (((verify_local_file_size (some 1000) 1000).status = VStatus.verified ↔
      some 1000 = some 1000) ∧
    ((verify_local_file_size (some 1000) 1000).status = VStatus.mismatch ↔
      ∃ a, some 1000 = some a ∧ a ≠ 1000) ∧
    ((verify_local_file_size (some 1000) 1000).status = VStatus.missing ↔
      (some 1000 : Option Nat) = none) ∧
    (∀ g : Option Nat, verify_completed_download_step g 0 = FileClass.skipped ∧
      verify_completed_download_step g 0 ≠ FileClass.mismatch ∧
      verify_completed_download_step g 0 ≠ FileClass.missing) ∧
    (∀ (cfg : Config) (env : FileEnv), env.expectedSize = 0 → env.downloadOk = true →
      (process_recording_file cfg env).fileSuccess = true)) :=
  ⟨by decide, c6_verification_classification 1000 (some 1000) (by decide)⟩

/-! Ledger write/reload helpers for the round-trip claim. -/

/-- C10.  Ledger removal tolerates absent entries: for every ledger
state and list of uuids, `remove_from_completed_log` succeeds, ignores
uuids not present in the in-memory set, and afterwards the in-memory
set and the rewritten ledger file both hold exactly the old set minus
the given uuids; applying the removal twice with the same list leaves
the same state as applying it once. -/
theorem c10_remove_from_completed_log (st : LedgerState) (us : List String) :
    (remove_from_completed_log st us).1 = true ∧
    (∀ x : String, x ∈ (remove_from_completed_log st us).2.mem ↔ x ∈ st.mem ∧ x ∉ us) ∧
    (remove_from_completed_log st us).2.file = (remove_from_completed_log st us).2.mem ∧
    remove_from_completed_log (remove_from_completed_log st us).2 us =
      remove_from_completed_log st us := by
  refine ⟨rfl, fun x => mem_removeAll us st.mem x, rfl, ?_⟩
  have hdisj : ∀ u ∈ us, u ∉ removeAll st.mem us := by
    intro u hu hmem
    exact ((mem_removeAll us st.mem u).mp hmem).2 hu
  unfold remove_from_completed_log
  rw [removeAll_of_disjoint us _ hdisj]

/-- Witness for C10: removing `a` and the absent `c` from the ledger
holding `a`, `b`. -/
theorem c10_remove_from_completed_log_witness :
    (remove_from_completed_log ⟨["a", "b"], ["a", "b"]⟩ ["a", "c"]).1 = true ∧
    (∀ x : String,
      x ∈ (remove_from_completed_log ⟨["a", "b"], ["a", "b"]⟩ ["a", "c"]).2.mem ↔
        x ∈ ["a", "b"] ∧ x ∉ ["a", "c"]) ∧
    (remove_from_completed_log ⟨["a", "b"], ["a", "b"]⟩ ["a", "c"]).2.file =
      (remove_from_completed_log ⟨["a", "b"], ["a", "b"]⟩ ["a", "c"]).2.mem ∧
    remove_from_completed_log
        (remove_from_completed_log ⟨["a", "b"], ["a", "b"]⟩ ["a", "c"]).2 ["a", "c"] =
      remove_from_completed_log ⟨["a", "b"], ["a", "b"]⟩ ["a", "c"] :=
  c10_remove_from_completed_log ⟨["a", "b"], ["a", "b"]⟩ ["a", "c"]

/-- C7.  Auto-fix ledger purge: given operator confirmation and a
non-empty set of problems, `auto_fix_corrupted_recordings` removes from
the in-memory completion set exactly the uuids having at least one
mismatch or missing file, rewrites the ledger file so it holds exactly
the remaining set, and emits the report of the removed mismatches and
missing files. -/
theorem c7_auto_fix_purge (mismatches : List (String × String × VResult))
    (missing : List (String × String × Nat)) (st : LedgerState)
    (hne : ¬(mismatches = [] ∧ missing = [])) :
    (∀ x : String,
      x ∈ (auto_fix_corrupted_recordings mismatches missing true st).1.mem ↔
        x ∈ st.mem ∧ x ∉ affected_uuids mismatches missing) ∧
    (∀ x : String, x ∈ affected_uuids mismatches missing ↔
      (∃ t ∈ mismatches, t.1 = x) ∨ (∃ t ∈ missing, t.1 = x)) ∧
    (auto_fix_corrupted_recordings mismatches missing true st).1.file =
      (auto_fix_corrupted_recordings mismatches missing true st).1.mem ∧
    (auto_fix_corrupted_recordings mismatches missing true st).2 =
      some ⟨mismatches, missing⟩ := by
  have hguard : (mismatches.isEmpty && missing.isEmpty) = false := by
    by_cases h1 : mismatches = []
    · subst h1
      have h2 : missing.isEmpty = false := by
        cases missing with
        | nil => exact absurd ⟨rfl, rfl⟩ hne
        | cons a l => rfl
      simp [h2]
    · have h2 : mismatches.isEmpty = false := by
        cases mismatches with
        | nil => exact absurd rfl h1
        | cons a l => rfl
      simp [h2]
  have heq : auto_fix_corrupted_recordings mismatches missing true st =
      (⟨removeAll st.mem (affected_uuids mismatches missing),
        removeAll st.mem (affected_uuids mismatches missing)⟩,
       some ⟨mismatches, missing⟩) := by
    unfold auto_fix_corrupted_recordings
    simp only [hguard]
    rfl
  rw [heq]
  refine ⟨fun x => mem_removeAll _ st.mem x, fun x => ?_, rfl, rfl⟩
  simp [affected_uuids]

/-- Witness for C7, the spec's concrete scenario: the ledger file holds
the lines `x` and `y`, the only problem is a size mismatch for `x`, and
after confirmation the ledger file holds only `y`. -/
theorem c7_auto_fix_purge_witness :
    (¬([( "x", "f1", (⟨VStatus.mismatch, some 1000, some 999⟩ : VResult))] = [] ∧
        ([] : List (String × String × Nat)) = [])) ∧
    ((∀ x : String,
      x ∈ (auto_fix_corrupted_recordings
            [("x", "f1", ⟨VStatus.mismatch, some 1000, some 999⟩)] [] true
            ⟨["x", "y"], ["x", "y"]⟩).1.mem ↔
        x ∈ ["x", "y"] ∧
          x ∉ affected_uuids [("x", "f1", ⟨VStatus.mismatch, some 1000, some 999⟩)] []) ∧
    (∀ x : String,
      x ∈ affected_uuids [("x", "f1", ⟨VStatus.mismatch, some 1000, some 999⟩)] [] ↔
        (∃ t ∈ [("x", "f1", (⟨VStatus.mismatch, some 1000, some 999⟩ : VResult))], t.1 = x) ∨
          (∃ t ∈ ([] : List (String × String × Nat)), t.1 = x)) ∧
    (auto_fix_corrupted_recordings
        [("x", "f1", ⟨VStatus.mismatch, some 1000, some 999⟩)] [] true
        ⟨["x", "y"], ["x", "y"]⟩).1.file =
      (auto_fix_corrupted_recordings
        [("x", "f1", ⟨VStatus.mismatch, some 1000, some 999⟩)] [] true
        ⟨["x", "y"], ["x", "y"]⟩).1.mem ∧
    (auto_fix_corrupted_recordings
        [("x", "f1", ⟨VStatus.mismatch, some 1000, some 999⟩)] [] true
        ⟨["x", "y"], ["x", "y"]⟩).2 =
      some ⟨[("x", "f1", ⟨VStatus.mismatch, some 1000, some 999⟩)], []⟩) ∧
    (auto_fix_corrupted_recordings
        [("x", "f1", ⟨VStatus.mismatch, some 1000, some 999⟩)] [] true
        ⟨["x", "y"], ["x", "y"]⟩).1.file = ["y"] :=
  ⟨by decide,
   c7_auto_fix_purge [("x", "f1", ⟨VStatus.mismatch, some 1000, some 999⟩)] []
     ⟨["x", "y"], ["x", "y"]⟩ (by decide),
   by decide⟩

/-- The notion of "the transfer of a single file fails" used by claim
C1: download failure, local size mismatch, upload failure (an attempted
backend upload returning failure), or remote size mismatch. -/
def fileTransferFailed (cfg : Config) (env : FileEnv) : Bool :=
  !env.downloadOk || localMismatchDetected cfg env ||
    (cfg.storageEnabled && !env.uploadOk) || remoteMismatchDetected cfg env

/-- Statement of claim C1 exactly as written: whenever any single
file's transfer fails in any of the four listed ways, the recording's
uuid is absent from the ledger afterwards and `process_recording`
returns false. -/
def allOrNothingClaim : Prop :=
  ∀ (cfg : Config) (st : LedgerState) (rec : Recording),
    cfg.useCompletedLog = true → rec.uuid ∉ st.mem →
    (∃ e ∈ rec.files, fileTransferFailed cfg e = true) →
    (process_recording cfg st rec).returnValue = false ∧
    rec.uuid ∉ (process_recording cfg st rec).ledger.mem

/-- Counterexample to C1 as stated: a recording with one file whose
download and local verification succeed but whose backend upload
returns failure is still marked complete — `process_recording` returns
true and writes the uuid to the ledger, because a failed upload never
touches `all_files_success` (it only suppresses local cleanup). -/
theorem c1_all_or_nothing_counterexample : ¬ allOrNothingClaim := by
  intro h
  have hc := h ⟨true, true, true, true⟩ ⟨[], []⟩
    ⟨"r1", [⟨true, 1000, some 1000, false, VStatus.error, true⟩]⟩ rfl (by decide)
    ⟨⟨true, 1000, some 1000, false, VStatus.error, true⟩, by decide, by decide⟩
  exact absurd hc.1 (by decide)

/-- C1 (amended).  All-or-nothing completion holds for download
failures and local size mismatches: if any single file's download
fails or its local size verification reports a mismatch, then after
`process_recording` returns, the ledger is unchanged (in particular it
does not contain the recording's uuid when it did not before), the
return value is false, the run still attempted a download for every one
of the N files, and a subsequent run over the resulting ledger
re-attempts all N files.  (Upload failures and remote size mismatches,
by contrast, do not prevent completion marking — see the
counterexample; they only suppress local-file cleanup.) -/
theorem c1_all_or_nothing_amended (cfg : Config) (st : LedgerState) (rec : Recording)
    (hN : rec.uuid ∉ st.mem)
    (hfail : ∃ e ∈ rec.files,
      e.downloadOk = false ∨ localMismatchDetected cfg e = true) :
    (process_recording cfg st rec).returnValue = false ∧
    (process_recording cfg st rec).ledger = st ∧
    (process_recording cfg st rec).downloadsAttempted = rec.files.length ∧
    (process_recording cfg (process_recording cfg st rec).ledger rec).downloadsAttempted =
      rec.files.length := by
  obtain ⟨env, henv, hbad⟩ := hfail
  have hne : ¬rec.files.isEmpty = true := by
    intro h
    rw [List.isEmpty_iff.mp h] at henv
    exact List.not_mem_nil env henv
  have hskip : ¬(cfg.useCompletedLog = true ∧ rec.uuid ∈ st.mem) := fun hc => hN hc.2
  have hfsucc : (process_recording_file cfg env).fileSuccess = false := by
    rcases hbad with h | h
    · simp [process_recording_file, h]
    · cases hd : env.downloadOk <;> simp [process_recording_file, hd, h]
  have hall : (rec.files.map (process_recording_file cfg)).all (fun o => o.fileSuccess)
      = false := by
    have hnot : ¬((rec.files.map (process_recording_file cfg)).all
        (fun o => o.fileSuccess) = true) := by
      rw [List.all_eq_true]
      intro hAll
      have := hAll (process_recording_file cfg env) (List.mem_map_of_mem _ henv)
      rw [hfsucc] at this
      exact Bool.false_ne_true this
    exact Bool.eq_false_iff.mpr hnot
  have hres : process_recording cfg st rec =
      ⟨false, st, rec.files.length,
        ((rec.files.map (process_recording_file cfg)).filter
          (fun o => o.uploadAttempted)).length⟩ := by
    unfold process_recording
    rw [if_neg hskip, if_neg hne]
    simp only [hall]
    rfl
  refine ⟨by rw [hres], by rw [hres], by rw [hres], ?_⟩
  rw [hres]
  show (process_recording cfg st rec).downloadsAttempted = rec.files.length
  rw [hres]

/-- Witness for the amended C1: a one-file recording whose download
fails is not marked complete, the ledger stays empty, and both this run
and the next attempt its single file. -/
theorem c1_all_or_nothing_amended_witness :
    (process_recording ⟨true, true, true, true⟩ ⟨[], []⟩
        ⟨"r1", [⟨false, 1000, none, false, VStatus.error, true⟩]⟩).returnValue = false ∧
    (process_recording ⟨true, true, true, true⟩ ⟨[], []⟩
        ⟨"r1", [⟨false, 1000, none, false, VStatus.error, true⟩]⟩).ledger = ⟨[], []⟩ ∧
    (process_recording ⟨true, true, true, true⟩ ⟨[], []⟩
        ⟨"r1", [⟨false, 1000, none, false, VStatus.error, true⟩]⟩).downloadsAttempted =
      [(⟨false, 1000, none, false, VStatus.error, true⟩ : FileEnv)].length ∧
    (process_recording ⟨true, true, true, true⟩
        (process_recording ⟨true, true, true, true⟩ ⟨[], []⟩
          ⟨"r1", [⟨false, 1000, none, false, VStatus.error, true⟩]⟩).ledger
        ⟨"r1", [⟨false, 1000, none, false, VStatus.error, true⟩]⟩).downloadsAttempted =
      [(⟨false, 1000, none, false, VStatus.error, true⟩ : FileEnv)].length :=
  c1_all_or_nothing_amended ⟨true, true, true, true⟩ ⟨[], []⟩
    ⟨"r1", [⟨false, 1000, none, false, VStatus.error, true⟩]⟩ (by decide)
    ⟨⟨false, 1000, none, false, VStatus.error, true⟩, by decide, Or.inl rfl⟩

/-- Statement of claim C2 exactly as written: when the backend
acknowledged the upload of a size-bearing file but its reported
persisted size differs from the expected size, the file's outcome is
failure — it counts as not succeeded for completion marking. -/
def remoteVerifyFailsFileClaim : Prop :=
  ∀ (cfg : Config) (env : FileEnv),
    cfg.storageEnabled = true → env.uploadOk = true → cfg.verifyOnUpload = true →
    0 < env.expectedSize → env.remoteStatus = VStatus.mismatch →
    (process_recording_file cfg env).fileSuccess = false

/-- Counterexample to C2 as stated: a file whose upload is acknowledged
but whose remote size verification reports a mismatch still counts as
succeeded for completion marking — the mismatch only resets
`upload_success`, which gates nothing but the local cleanup. -/
theorem c2_remote_verify_counterexample : ¬ remoteVerifyFailsFileClaim := by
  intro h
  have hc := h ⟨true, true, true, true⟩ ⟨true, 1000, some 1000, true, VStatus.mismatch, true⟩
    rfl rfl rfl (by decide) rfl
  exact absurd hc (by decide)

/-- C2 (amended).  A remote size mismatch on an acknowledged upload of
a size-bearing file marks the upload failed (`upload_success` becomes
false) and therefore the local copy is not cleaned up, but the file
still counts as succeeded for the purposes of completion marking
(provided its download succeeded and local verification detected no
mismatch). -/
theorem c2_remote_verify_amended (cfg : Config) (env : FileEnv)
    (hs : cfg.storageEnabled = true) (hu : env.uploadOk = true)
    (hv : cfg.verifyOnUpload = true) (he : 0 < env.expectedSize)
    (hm : env.remoteStatus = VStatus.mismatch) (hd : env.downloadOk = true)
    (hl : localMismatchDetected cfg env = false) :
    (process_recording_file cfg env).uploadSuccess = false ∧
    (process_recording_file cfg env).localDeleted = false ∧
    (process_recording_file cfg env).fileSuccess = true := by
  have hr : remoteMismatchDetected cfg env = true := by
    simp [remoteMismatchDetected, hs, hu, hv, he, hm]
  simp [process_recording_file, hd, hl, hr]

/-- Witness for the amended C2 at a concrete mismatching upload. -/
theorem c2_remote_verify_amended_witness :
    (process_recording_file ⟨true, true, true, true⟩
        ⟨true, 1000, some 1000, true, VStatus.mismatch, true⟩).uploadSuccess = false ∧
    (process_recording_file ⟨true, true, true, true⟩
        ⟨true, 1000, some 1000, true, VStatus.mismatch, true⟩).localDeleted = false ∧
    (process_recording_file ⟨true, true, true, true⟩
        ⟨true, 1000, some 1000, true, VStatus.mismatch, true⟩).fileSuccess = true :=
  c2_remote_verify_amended ⟨true, true, true, true⟩
    ⟨true, 1000, some 1000, true, VStatus.mismatch, true⟩
    rfl rfl rfl (by decide) rfl rfl (by decide)

/-- Statement of claim C9 exactly as written: a transferred file's
local copy is deleted only after a confirmed successful remote
verification, or in pure local mode (no backend) when local
verification passes. -/
def cleanupClaim : Prop :=
  ∀ (cfg : Config) (env : FileEnv),
    (process_recording_file cfg env).localDeleted = true →
      (cfg.storageEnabled = true ∧ cfg.verifyOnUpload = true ∧ 0 < env.expectedSize ∧
        env.uploadOk = true ∧ env.remoteStatus = VStatus.verified) ∨
      (cfg.storageEnabled = false ∧
        (verify_local_file_size env.localSize env.expectedSize).status = VStatus.verified)

/-- Counterexample to C9 as stated, in both directions at once: when
the backend's size verification returns status `error` (so remote
verification confirmed nothing), the local copy is deleted anyway —
only the `mismatch` status blocks cleanup; and in pure local mode the
local copy is never deleted, even when local verification passes, since
cleanup is gated on `upload_success`, which stays false without a
backend. -/
theorem c9_cleanup_counterexample : ¬ cleanupClaim := by
  intro h
  have hc := h ⟨true, true, true, true⟩ ⟨true, 1000, some 1000, true, VStatus.error, true⟩
    (by decide)
  revert hc
  decide

/-- C9 (amended).  Cleanup characterization: the local copy is deleted
exactly when the download succeeded, local verification detected no
mismatch, a backend is enabled and acknowledged the upload, remote
verification did not detect a mismatch, and the local file exists; in
pure local mode the local file is never deleted; and when the file is
deleted and its containing folder becomes empty, the folder is removed
as well (`folderRemoved` holds exactly for deleted files whose folder
ended up empty). -/
theorem c9_cleanup_amended (cfg : Config) (env : FileEnv) :
    (process_recording_file cfg env).localDeleted =
      (env.downloadOk && !(localMismatchDetected cfg env) &&
        (cfg.storageEnabled && env.uploadOk) && !(remoteMismatchDetected cfg env) &&
        env.localSize.isSome) ∧
    (process_recording_file cfg env).folderRemoved =
      ((process_recording_file cfg env).localDeleted && env.folderEmpty) ∧
    (cfg.storageEnabled = false → (process_recording_file cfg env).localDeleted = false) := by
  cases hd : env.downloadOk with
  | false => simp [process_recording_file, hd]
  | true =>
      cases hm : localMismatchDetected cfg env with
      | true => simp [process_recording_file, hd, hm]
      | false =>
          refine ⟨?_, ?_, ?_⟩
          · cases hr : remoteMismatchDetected cfg env <;>
              simp [process_recording_file, hd, hm, hr, Bool.and_assoc]
          · simp [process_recording_file, hd, hm]
          · intro hs
            simp [process_recording_file, hd, hm, hs]

/-- Witness for the amended C9 at a concrete acknowledged, verified
upload whose folder becomes empty. -/
theorem c9_cleanup_amended_witness :
    (process_recording_file ⟨true, true, true, true⟩
        ⟨true, 1000, some 1000, true, VStatus.verified, true⟩).localDeleted =
      (true && !(localMismatchDetected ⟨true, true, true, true⟩
          ⟨true, 1000, some 1000, true, VStatus.verified, true⟩) &&
        (true && true) && !(remoteMismatchDetected ⟨true, true, true, true⟩
          ⟨true, 1000, some 1000, true, VStatus.verified, true⟩) &&
        (some 1000 : Option Nat).isSome) ∧
    (process_recording_file ⟨true, true, true, true⟩
        ⟨true, 1000, some 1000, true, VStatus.verified, true⟩).folderRemoved =
      ((process_recording_file ⟨true, true, true, true⟩
          ⟨true, 1000, some 1000, true, VStatus.verified, true⟩).localDeleted && true) ∧
    ((⟨true, true, true, true⟩ : Config).storageEnabled = false →
      (process_recording_file ⟨true, true, true, true⟩
          ⟨true, 1000, some 1000, true, VStatus.verified, true⟩).localDeleted = false) :=
  c9_cleanup_amended ⟨true, true, true, true⟩
    ⟨true, 1000, some 1000, true, VStatus.verified, true⟩

/-! Helper lemmas about the `S3Client.upload_file` retry loop. -/

lemma upload_file_go_head_true (rD : Nat) (l : List Bool) :
    upload_file_go rD (true :: l) = ⟨true, 1, 0, 0⟩ := by
  cases l <;> simp [upload_file_go]

lemma upload_file_go_all_false (rD : Nat) :
    ∀ l : List Bool, (∀ b ∈ l, b = false) → l ≠ [] →
      upload_file_go rD l = ⟨false, l.length, (l.length - 1) * rD, 1⟩ := by
  intro l
  induction l with
  | nil => intro _ h; exact absurd rfl h
  | cons b l ih =>
      intro hall _
      have hb : b = false := hall b (List.mem_cons_self b l)
      subst hb
      cases l with
      | nil => simp [upload_file_go]
      | cons c l' =>
          have hrec := ih (fun x hx => hall x (List.mem_cons_of_mem _ hx)) (by simp)
          rw [upload_file_go]
          simp only [Bool.false_eq_true, if_false]
          rw [hrec]
          simp [List.length_cons, Nat.succ_sub_one, Nat.succ_mul]
          simp

/-- Statement of claim C5 exactly as written: a file download whose
attempts all raise is retried up to `max_retries` times (default 3)
with a fixed delay (default 5 seconds) between attempts, and after
exhausting the retries one line is appended to the failed-uploads log
and the transfer returns failure. -/
def downloadRetryClaim : Prop :=
  ∀ f : Nat → Bool, (∀ i, f i = false) →
    download_recording f = ⟨false, 3, 10, 1⟩

/-- Counterexample to C5 as stated: when every attempt fails,
`download_recording` performs exactly one attempt, sleeps zero seconds,
appends nothing to the failed-uploads log, and returns failure at once
— the retry-with-delay-and-failed-log behaviour does not exist on the
download path. -/
theorem c5_download_retry_counterexample : ¬ downloadRetryClaim := by
  intro h
  have hc := h (fun _ => false) (fun _ => rfl)
  exact absurd hc (by decide)

/-- C5 (amended).  Downloads are attempted exactly once:
`download_recording` returns the first attempt's outcome after one
attempt, no delay, and no failed-uploads-log line.  The bounded
retry with fixed delay and failed-uploads logging belongs to the
upload path, `S3Client.upload_file`: with `max_retries` positive, when
every attempt fails it makes exactly `max_retries` attempts, sleeps
`retry_delay` seconds between consecutive attempts (so
`(max_retries - 1) * retry_delay` in total), appends exactly one line
to the failed-uploads log, and returns failure; and a first attempt
that succeeds returns success immediately after one attempt with no
sleep and no log line. -/
theorem c5_transfer_retry_amended (max_retries retry_delay : Nat) (f : Nat → Bool)
    (hm : 0 < max_retries) (hf : ∀ i, f i = false) :
    (∀ g : Nat → Bool, download_recording g = ⟨g 0, 1, 0, 0⟩) ∧
    upload_file max_retries retry_delay f =
      ⟨false, max_retries, (max_retries - 1) * retry_delay, 1⟩ ∧
    (∀ g : Nat → Bool, g 0 = true →
      upload_file max_retries retry_delay g = ⟨true, 1, 0, 0⟩) := by
  refine ⟨fun g => rfl, ?_, ?_⟩
  · have hlen : ((List.range max_retries).map f).length = max_retries := by simp
    have hne : (List.range max_retries).map f ≠ [] := by
      simp [List.eq_nil_iff_forall_not_mem]
      exact ⟨0, hm⟩
    have hall : ∀ b ∈ (List.range max_retries).map f, b = false := by
      intro b hb
      obtain ⟨i, _, rfl⟩ := List.mem_map.mp hb
      exact hf i
    unfold upload_file
    rw [upload_file_go_all_false retry_delay _ hall hne, hlen]
  · intro g hg
    obtain ⟨k, rfl⟩ := Nat.exists_eq_succ_of_ne_zero (Nat.pos_iff_ne_zero.mp hm)
    unfold upload_file
    rw [List.range_succ_eq_map]
    simp only [List.map_cons, hg]
    exact upload_file_go_head_true retry_delay _

/-- Witness for the amended C5 at the default configuration
(`max_retries = 3`, `retry_delay = 5`) and an always-failing oracle:
the download makes its single attempt while the upload makes three
attempts, sleeps ten seconds in total, and logs one line. -/
theorem c5_transfer_retry_amended_witness :
    0 < 3 ∧
    ((∀ g : Nat → Bool, download_recording g = ⟨g 0, 1, 0, 0⟩) ∧
    upload_file 3 5 (fun _ => false) = ⟨false, 3, (3 - 1) * 5, 1⟩ ∧
    (∀ g : Nat → Bool, g 0 = true → upload_file 3 5 g = ⟨true, 1, 0, 0⟩)) :=
  ⟨by decide, c5_transfer_retry_amended 3 5 (fun _ => false) (by decide) (fun _ => rfl)⟩
